import Mathlib

/-!
Verification development for the `tap` TAP-client library (`tap.py`).

The embedding is shallow: Python floats (durations, coordinates) are modelled
as exact rationals `ℚ`, HTTP traffic is modelled by explicit parameters (a
server is a function from a request to a response body; a sequence of status
polls is a function `ℕ → String` giving the phase text returned by the n-th
poll), fallible operations return `Option`, and `None` returns are `Option`
values.  Every definition is executable so concrete runs can be checked by
kernel reduction.
-/

set_option maxRecDepth 40000

/-! ## Time formatter (`_pretty_print_time`, tap.py lines 26-36)

The Python code computes `order = min(-int(math.floor(math.log10(t)) // 3), 3)`
for `0 < t < 1000`, `order = 0` for `t >= 1000`, `order = 3` otherwise, and
returns `"%.3g %s" % (t * scaling[order], units[order])` with
`units = ["s", "ms", "us", "ns"]` and `scaling = [1, 1e3, 1e6, 1e9]`.

`math.floor(math.log10 t)` is modelled by `flog10`, an exact `⌊log10 t⌋` on
positive rationals computed from the numerator and denominator digit counts;
theorem `flog10_spec` below characterises it by `10 ^ flog10 t ≤ t < 10 ^ (flog10 t + 1)`.
The C `printf` conversion `%.3g` is modelled exactly on rationals by `fmtG3`:
round to 3 significant digits (half-to-even, as the C library rounds the exact
value), use fixed notation when the decimal exponent `X` of the rounded value
satisfies `-4 ≤ X < 3` and scientific notation otherwise, and strip trailing
zeros (and a trailing decimal point) from the fractional part.  The exponent
is printed with a sign and at least two digits.
-/

/-- One step per decimal digit: `ndigitsAux fuel n` is the number of decimal
digits of `n` (0 for 0) whenever `n < fuel`.  The fuel only bounds the
recursion; it is consumed once per digit. -/
def ndigitsAux : ℕ → ℕ → ℕ
  | 0, _ => 0
  | fuel + 1, n => if n = 0 then 0 else ndigitsAux fuel (n / 10) + 1

/-- Number of decimal digits of `n` (0 for 0). -/
def ndigits (n : ℕ) : ℕ := ndigitsAux (n + 1) n

/-- `⌊log10 (n / d)⌋` for natural `n, d ≥ 1`, computed exactly:
for `n / d ≥ 1` it is the digit count of the integer part minus one; for
`n / d < 1` it is `-⌈log10 (d / n)⌉`, where the ceiling is the digit-count
bound corrected when `d / n` is an exact power of ten. -/
def flog10nd (n d : ℕ) : ℤ :=
  if d ≤ n then (ndigits (n / d) : ℤ) - 1
  else
    let e0 := ndigits (d / n) - 1
    if d = n * 10 ^ e0 then -(e0 : ℤ) else -((e0 : ℤ) + 1)

/-- `math.floor(math.log10 t)` on the exact rational `t` (meaningful for
`t > 0`; `math.log10` raises on non-positive input and the callers below only
use it on positive arguments). -/
def flog10 (t : ℚ) : ℤ := flog10nd t.num.natAbs t.den

/-- Round `a / b` (with `b > 0`) to the nearest integer, ties to even —
the rounding applied by the C library when printing the exact value with a
limited number of significant digits. -/
def rhe (a b : ℕ) : ℕ :=
  let q := a / b
  let r := a % b
  if 2 * r < b then q
  else if b < 2 * r then q + 1
  else if q % 2 = 0 then q else q + 1

/-- Round the positive rational `n / d` to three significant digits:
returns `(m, X)` with `100 ≤ m ≤ 999` and value `m * 10 ^ (X - 2)`,
where `X` is the decimal exponent of the rounded value. -/
def sigDigits3 (n d : ℕ) : ℕ × ℤ :=
  let e := flog10nd n d
  let m :=
    if 2 ≤ e then rhe n (d * 10 ^ (e - 2).toNat)
    else rhe (n * 10 ^ (2 - e).toNat) d
  if m = 1000 then (100, e + 1) else (m, e)

/-- The decimal digit `k ≤ 9` as a character. -/
def digitChar (k : ℕ) : Char := Char.ofNat (48 + k)

/-- Remove trailing `'0'` characters. -/
def stripZeros (l : List Char) : List Char :=
  (l.reverse.dropWhile (fun c => c = '0')).reverse

/-- The exponent part of `%g` scientific notation: sign always printed,
at least two exponent digits. -/
def expString (x : ℤ) : String :=
  let sgn := if x < 0 then "-" else "+"
  let n := x.natAbs
  let core := Nat.toDigits 10 n
  let padded := if n < 10 then '0' :: core else core
  "e" ++ sgn ++ String.mk padded

/-- Render the three significant digits `m` (`100 ≤ m ≤ 999`) with decimal
exponent `X` in `%.3g` style: fixed notation when `-4 ≤ X < 3`, scientific
notation otherwise, trailing zeros of the fraction stripped. -/
def fmtDigits (m : ℕ) (X : ℤ) : String :=
  let d2 := digitChar (m / 100)
  let d1 := digitChar (m / 10 % 10)
  let d0 := digitChar (m % 10)
  if -4 ≤ X ∧ X < 3 then
    if 0 ≤ X then
      let il := X.toNat + 1
      let ip := [d2, d1, d0].take il
      let fp := stripZeros ([d2, d1, d0].drop il)
      String.mk ip ++ (if fp.isEmpty then "" else "." ++ String.mk fp)
    else
      let zeros := List.replicate (X.natAbs - 1) '0'
      "0." ++ String.mk (stripZeros (zeros ++ [d2, d1, d0]))
  else
    let fp := stripZeros [d1, d0]
    String.mk [d2] ++ (if fp.isEmpty then "" else "." ++ String.mk fp) ++ expString X

/-- The C `printf` conversion `"%.3g"` applied to the exact rational `q`. -/
def fmtG3 (q : ℚ) : String :=
  if q = 0 then "0"
  else
    let sgn := if q < 0 then "-" else ""
    let p := sigDigits3 q.num.natAbs q.den
    sgn ++ fmtDigits p.1 p.2

/-- `units = [u"s", u"ms", u'us', "ns"]` (tap.py line 28). -/
def units : List String := ["s", "ms", "us", "ns"]

/-- `scaling = [1, 1e3, 1e6, 1e9]` (tap.py line 29), exact. -/
def scaling : List ℚ := [1, 1000, 1000000, 1000000000]

/-- The unit index chosen by `_pretty_print_time` (tap.py lines 30-35):
`min(-int(math.floor(math.log10(t)) // 3), 3)` when `0 < t < 1000`
(Python `//` on integers is `Int.fdiv`; the value is non-negative in this
branch, so the `ℕ`-valued index is taken with `Int.toNat`), `0` when
`t ≥ 1000`, else `3`. -/
def unitOrder (t : ℚ) : ℕ :=
  if 0 < t ∧ t < 1000 then (min (-((flog10 t).fdiv 3)) 3).toNat
  else if 1000 ≤ t then 0
  else 3

/-- `_pretty_print_time` (tap.py lines 26-36): `"%.3g %s" % (t * scaling[order], units[order])`. -/
def _pretty_print_time (t : ℚ) : String :=
  fmtG3 (t * scaling.getD (unitOrder t) 1) ++ " " ++ units.getD (unitOrder t) "s"

/-! ## Asynchronous query client (`TAP_AsyncQuery`, tap.py lines 39-156)

The transient `self.response` field (the raw HTTP response of the last network
call, overwritten on every call) is not part of the state here; each modelled
operation instead takes the relevant piece of the server's answer as an
explicit argument and returns its result explicitly.
-/

/-- The state of a `TAP_AsyncQuery` object (tap.py lines 53-61). -/
structure TAP_AsyncQuery where
  adql : String
  host : String
  port : ℕ
  path : String
  location : Option String
  jobid : Option String

/-- `TAP_AsyncQuery.__init__` (tap.py lines 53-61): `location` and `jobid`
start out as `None`. -/
def TAP_AsyncQuery.init (adql_query host path : String) (port : ℕ) : TAP_AsyncQuery :=
  { adql := adql_query, host := host, port := port, path := path
    location := none, jobid := none }

/-- Python `str.rfind` on a character: index of the last occurrence, `-1` if
absent. -/
def strRfind : List Char → Char → ℤ
  | [], _ => -1
  | a :: l, c =>
    let r := strRfind l c
    if 0 ≤ r then r + 1 else if a = c then 0 else -1

/-- `location[location.rfind('/') + 1:]` (tap.py line 90): the substring
after the last `'/'` (the whole string when there is no `'/'`, since
`rfind` then yields `-1` and the slice starts at 0). -/
def jobidOf (location : String) : String :=
  String.mk (location.data.drop (strRfind location.data '/' + 1).toNat)

/-- The fixed form parameters POSTed on submit and on synchronous queries
(tap.py lines 76-80 and 198-204). -/
def queryParams (adql_query : String) : List (String × String) :=
  [("query", adql_query), ("request", "doQuery"), ("lang", "adql"),
   ("format", "votable"), ("phase", "run")]

/-- `TAP_AsyncQuery.submit` (tap.py lines 63-97).  `locationHeader` is the
`location` response header returned by the server (`None` when absent).
`self.location = response.getheader("location")` followed by
`self.jobid = self.location[self.location.rfind('/') + 1:]` fails with a
`TypeError` when the header is absent (slicing `None`), modelled by `none`;
otherwise both fields are set. -/
def TAP_AsyncQuery.submit (q : TAP_AsyncQuery) (locationHeader : Option String) :
    Option TAP_AsyncQuery :=
  match locationHeader with
  | none => none
  | some loc => some { q with location := some loc, jobid := some (jobidOf loc) }

/-- The URL requested by the `status` property (tap.py line 103):
`self.path + "/" + self.jobid`.  Concatenating `None` raises a `TypeError`,
so the request fails (`none`) before any network traffic when `jobid` is
unset. -/
def TAP_AsyncQuery.statusUrl (q : TAP_AsyncQuery) : Option String :=
  q.jobid.map (fun j => q.path ++ "/" ++ j)

/-- The URL requested by the result fetch in `get` (tap.py line 140):
`self.path + "/" + self.jobid + "/results/result"`; fails on an unset
`jobid` exactly like `statusUrl`. -/
def TAP_AsyncQuery.resultUrl (q : TAP_AsyncQuery) : Option String :=
  q.jobid.map (fun j => q.path ++ "/" ++ j ++ "/results/result")

/-- `TAP_AsyncQuery.finished` (tap.py lines 113-116) evaluated at the moment
the `status` property returned the phase text `phase`:
`self.status == 'COMPLETED'`. -/
def TAP_AsyncQuery.finished (phase : String) : Bool :=
  phase == "COMPLETED"

/-- The `while (not self.finished) & wait: time.sleep(sleep)` loop of
`TAP_AsyncQuery.get` (tap.py lines 134-135).  Every evaluation of
`self.finished` performs a fresh status poll; `phases n` is the phase text
returned by the n-th poll of this `get` call.  `i` is the index of the next
poll and `fuel` bounds the number of loop iterations observed: `none` means
the loop is still running after `fuel` polls.  On exit the index of the next
unused poll is returned (the loop consumed polls `i, i+1, …`; the
post-loop `if not self.finished` check will consume one more). -/
def TAP_AsyncQuery.getLoop (phases : ℕ → String) (wait : Bool) :
    ℕ → ℕ → Option ℕ
  | 0, _ => none
  | fuel + 1, i =>
    if (!TAP_AsyncQuery.finished (phases i)) && wait then
      TAP_AsyncQuery.getLoop phases wait fuel (i + 1)
    else some (i + 1)

/-- `TAP_AsyncQuery.get` (tap.py lines 118-145).  `resultBody` is the body
the server would return for the `…/results/result` resource.  The outer
`Option` is termination within `fuel` loop iterations (`none` = still
polling); the inner `Option` is the Python return value: `none` for the bare
`return` taken when the job is still not finished after the loop (no result
fetch is performed), `some resultBody` when the post-loop check sees
`COMPLETED` and the result resource is fetched and returned. -/
def TAP_AsyncQuery.get (phases : ℕ → String) (resultBody : String)
    (wait : Bool) (fuel : ℕ) : Option (Option String) :=
  match TAP_AsyncQuery.getLoop phases wait fuel 0 with
  | none => none
  | some j =>
    if !TAP_AsyncQuery.finished (phases j) then some none
    else some (some resultBody)

/-! ## TAP service client (`TAP_Service`, tap.py lines 159-236) -/

/-- The state of a `TAP_Service` object (tap.py lines 172-175). -/
structure TAP_Service where
  host : String
  path : String
  port : ℕ

/-- `TAP_Service.tap_endpoint` (tap.py lines 177-180):
`"http://{s.host:s}{s.path:s}".format(s=self)`. -/
def TAP_Service.tap_endpoint (s : TAP_Service) : String :=
  "http://" ++ s.host ++ s.path

/-- The synchronous branch of `TAP_Service.query` (tap.py lines 197-210).
`post url form` is the response body the HTTP layer returns for a POST of
`form` to `url`; `parse` is `Table.read(…, format="votable")`, returning
`none` when parsing raises.  The result is the pair
(returned value, `self.response` stashed for debugging): on a parse success
the table is returned and nothing is stashed; on a parse failure the bare
`except` swallows the error, the raw response is stashed and the function
falls through to `return None`. -/
def TAP_Service.query_sync {α : Type} (s : TAP_Service) (adql_query : String)
    (post : String → List (String × String) → String)
    (parse : String → Option α) : Option α × Option String :=
  let r := post (s.tap_endpoint ++ "/sync") (queryParams adql_query)
  match parse r with
  | some table => (some table, none)
  | none => (none, some r)

/-- `TAP_Service.query_async` (tap.py lines 214-236): builds a
`TAP_AsyncQuery` bound to `self.path + '/async'` with the service's host and
port; submits it iff `submit` is true (the submitted job, like `submit`
itself, needs the server's `location` header).  The job object is returned
either way (`none` only for the `TypeError` of a submit without a `location`
header). -/
def TAP_Service.query_async (s : TAP_Service) (adql_query : String)
    (submit : Bool) (locationHeader : Option String) : Option TAP_AsyncQuery :=
  let q := TAP_AsyncQuery.init adql_query s.host (s.path ++ "/async") s.port
  if submit then TAP_AsyncQuery.submit q locationHeader else some q

/-- `TAPVizieR()` (tap.py lines 239-245). -/
def TAPVizieR : TAP_Service :=
  { host := "tapvizier.u-strasbg.fr", path := "/TAPVizieR/tap", port := 80 }

/-- `GaiaArchive()` (tap.py lines 248-253). -/
def GaiaArchive : TAP_Service :=
  { host := "gea.esac.esa.int", path := "/tap-server/tap", port := 80 }

/-! ## Name resolution (`resolve`, tap.py lines 256-296) -/

/-- An XML element: tag, text content, child elements (the fragment of the
document model that `resolve`'s two XPath queries inspect). -/
inductive Xml where
  | elem (tag : String) (text : String) (children : List Xml)

/-- The element's tag. -/
def Xml.tag : Xml → String
  | .elem t _ _ => t

/-- The element's text content. -/
def Xml.text : Xml → String
  | .elem _ s _ => s

/-- The element's child elements. -/
def Xml.children : Xml → List Xml
  | .elem _ _ c => c

/-- The XPath query `/Sesame/Target/Resolver[1]/{field}` (tap.py lines
290-291): the root must be a `Sesame` element; for every `Target` child, the
first of its `Resolver` children contributes its `field` children. -/
def sesameXpath (root : Xml) (field : String) : List Xml :=
  if root.tag == "Sesame" then
    (root.children.filter (fun c => c.tag == "Target")).flatMap fun t =>
      ((t.children.filter (fun c => c.tag == "Resolver")).take 1).flatMap fun r =>
        r.children.filter (fun c => c.tag == field)
  else []

/-- The two return shapes of `resolve`: the Python function returns either
the empty list `[]` or the pair `(ra, dec)`. -/
inductive ResolveResult where
  | emptyList
  | coords (ra dec : ℚ)
deriving DecidableEq

/-- `resolve` (tap.py lines 256-296) applied to the parsed response document
`doc`.  `parseFloat` is Python's `float(…)` on the element text (`none` when
it raises).  `pathRa`/`pathDec` are the two XPath results; an empty `pathRa`
returns the empty list; otherwise `pathRa[0]`/`pathDec[0]` are converted and
returned as a pair.  The outer `none` models the uncaught exceptions
(`IndexError` on `pathDec[0]` when only `pathRa` is non-empty, `ValueError`
from `float`). -/
def resolve (doc : Xml) (parseFloat : String → Option ℚ) : Option ResolveResult :=
  let pathRa := sesameXpath doc "jradeg"
  let pathDec := sesameXpath doc "jdedeg"
  match pathRa with
  | [] => some .emptyList
  | raEl :: _ =>
    match pathDec with
    | [] => none
    | deEl :: _ =>
      match parseFloat raEl.text, parseFloat deEl.text with
      | some ra, some dec => some (.coords ra dec)
      | _, _ => none

/-! ## Execution timer (`timeit`, tap.py lines 329-372) -/

/-- The state of a `timeit` object (named `Timeit` here because Lean's core library already uses the name `timeit`): the optionally wrapped function, the
formatted elapsed-time text, and the start timestamp recorded by
`__enter__` (`none` before entry). -/
structure Timeit (α β : Type) where
  func : Option (α → β)
  text : String
  start : Option ℚ

/-- `timeit.__init__` (tap.py lines 333-335). -/
def Timeit.init {α β : Type} (func : Option (α → β)) : Timeit α β :=
  { func := func, text := "", start := none }

/-- `Timeit._pretty_print_time` (tap.py lines 353-364), a verbatim copy of
the module-level function inside the class, re-translated here on its own. -/
def Timeit._pretty_print_time (t : ℚ) : String :=
  let units : List String := ["s", "ms", "us", "ns"]
  let scaling : List ℚ := [1, 1000, 1000000, 1000000000]
  let order : ℕ :=
    if 0 < t ∧ t < 1000 then (min (-((flog10 t).fdiv 3)) 3).toNat
    else if 1000 ≤ t then 0
    else 3
  fmtG3 (t * scaling.getD order 1) ++ " " ++ units.getD order "s"

/-- `timeit.__enter__` (tap.py lines 366-367): records the current time. -/
def Timeit.enter {α β : Type} (tm : Timeit α β) (now : ℚ) : Timeit α β :=
  { tm with start := some now }

/-- `timeit.__exit__` (tap.py lines 369-372): formats `stop - start`
(fails — `AttributeError` — when `__enter__` never ran). -/
def Timeit.exit {α β : Type} (tm : Timeit α β) (now : ℚ) : Option (Timeit α β) :=
  tm.start.map fun s => { tm with text := Timeit._pretty_print_time (now - s) }

/-- `timeit.__call__` (tap.py lines 346-351): returns immediately (with
`None`) when no function is wrapped; otherwise runs the wrapped function
inside a fresh `with timeit():` block (timestamps `t0`, `t1`) and returns its
result unchanged.  The inner timer only produces a display side effect. -/
def Timeit.call {α β : Type} (tm : Timeit α β) (t0 t1 : ℚ) (x : α) : Option β :=
  match tm.func with
  | none => none
  | some f =>
    let inner := (Timeit.init (none : Option (α → β))).enter t0
    let result := f x
    let _timed := inner.exit t1
    some result

/-! ## Helper lemmas -/

theorem strRfind_eq_neg_one {l : List Char} {c : Char} (h : c ∉ l) :
    strRfind l c = -1 := by
  induction l with
  | nil => rfl
  | cons a l ih =>
    have ha : ¬a = c := fun hac => h (hac ▸ List.mem_cons_self a l)
    have hl : c ∉ l := fun hc => h (List.mem_cons_of_mem a hc)
    simp [strRfind, ih hl, ha]

theorem strRfind_append (l₁ l₂ : List Char) (h : '/' ∉ l₂) :
    strRfind (l₁ ++ '/' :: l₂) '/' = l₁.length := by
  induction l₁ with
  | nil =>
    simp [strRfind, strRfind_eq_neg_one h]
  | cons a l ih =>
    have : (0 : ℤ) ≤ strRfind (l ++ '/' :: l₂) '/' := by
      rw [ih]; exact Int.ofNat_nonneg _
    simp [strRfind, ih, this]

theorem getLoop_some_completed (phases : ℕ → String) :
    ∀ fuel i j, TAP_AsyncQuery.getLoop phases true fuel i = some j →
      ∃ n, phases n = "COMPLETED" := by
  intro fuel
  induction fuel with
  | zero => intro i j h; simp [TAP_AsyncQuery.getLoop] at h
  | succ k ih =>
    intro i j h
    by_cases hf : TAP_AsyncQuery.finished (phases i) = true
    · exact ⟨i, by simpa [TAP_AsyncQuery.finished] using hf⟩
    · rw [TAP_AsyncQuery.getLoop] at h
      simp only [hf, Bool.not_false, Bool.true_and] at h
      simp only [Bool.not_eq_true] at hf
      simp only [hf, Bool.not_false, Bool.true_and, if_true] at h
      exact ih (i + 1) j h

theorem getLoop_terminates (phases : ℕ → String) :
    ∀ k i, phases (i + k) = "COMPLETED" →
      ∃ j, TAP_AsyncQuery.getLoop phases true (k + 1) i = some j := by
  intro k
  induction k with
  | zero =>
    intro i h
    refine ⟨i + 1, ?_⟩
    rw [TAP_AsyncQuery.getLoop]
    have : TAP_AsyncQuery.finished (phases i) = true := by
      simp [TAP_AsyncQuery.finished]; simpa using h
    simp [this]
  | succ k ih =>
    intro i h
    by_cases hf : TAP_AsyncQuery.finished (phases i) = true
    · refine ⟨i + 1, ?_⟩
      rw [TAP_AsyncQuery.getLoop]
      simp [hf]
    · obtain ⟨j, hj⟩ := ih (i + 1) (by rw [show i + 1 + k = i + (k + 1) by omega]; exact h)
      refine ⟨j, ?_⟩
      rw [TAP_AsyncQuery.getLoop]
      simp only [Bool.not_eq_true] at hf
      simp [hf, hj]

theorem getLoop_never_completed (phases : ℕ → String)
    (h : ∀ n, phases n ≠ "COMPLETED") :
    ∀ fuel i, TAP_AsyncQuery.getLoop phases true fuel i = none := by
  intro fuel
  induction fuel with
  | zero => intro i; rfl
  | succ k ih =>
    intro i
    have hf : TAP_AsyncQuery.finished (phases i) = false := by
      simpa [TAP_AsyncQuery.finished] using h i
    rw [TAP_AsyncQuery.getLoop]
    simp [hf, ih]

theorem getLoop_nowait (phases : ℕ → String) :
    ∀ fuel, 1 ≤ fuel → TAP_AsyncQuery.getLoop phases false fuel 0 = some 1 := by
  intro fuel hfuel
  cases fuel with
  | zero => omega
  | succ k => rw [TAP_AsyncQuery.getLoop]; simp

/-! ## Claim theorems -/

/-- C1: `finished` is true iff the polled phase text equals `"COMPLETED"`;
with `wait=True` the polling loop of `get` terminates iff some status poll
returns `"COMPLETED"`; if no poll ever returns `"COMPLETED"` (e.g. the job
stays in ERROR or ABORTED forever) the loop polls forever. -/
theorem async_finished_and_wait_loop :
    (∀ phase, TAP_AsyncQuery.finished phase = true ↔ phase = "COMPLETED")
    ∧ (∀ (phases : ℕ → String) (resultBody : String),
        (∃ fuel, (TAP_AsyncQuery.get phases resultBody true fuel).isSome)
          ↔ (∃ n, phases n = "COMPLETED"))
    ∧ (∀ (phases : ℕ → String) (resultBody : String),
        (∀ n, phases n ≠ "COMPLETED") →
        ∀ fuel, TAP_AsyncQuery.get phases resultBody true fuel = none) := by
  refine ⟨fun phase => by simp [TAP_AsyncQuery.finished], ?_, ?_⟩
  · intro phases resultBody
    constructor
    · rintro ⟨fuel, hfuel⟩
      rw [TAP_AsyncQuery.get] at hfuel
      rcases hloop : TAP_AsyncQuery.getLoop phases true fuel 0 with _ | j
      · rw [hloop] at hfuel; simp at hfuel
      · exact getLoop_some_completed phases fuel 0 j hloop
    · rintro ⟨n, hn⟩
      obtain ⟨j, hj⟩ := getLoop_terminates phases n 0 (by simpa using hn)
      refine ⟨n + 1, ?_⟩
      rw [TAP_AsyncQuery.get, hj]
      by_cases hfin : TAP_AsyncQuery.finished (phases j) = true <;> simp [hfin]
  · intro phases resultBody h fuel
    rw [TAP_AsyncQuery.get, getLoop_never_completed phases h fuel 0]

/-- Closed witness for C1: a job stuck in phase `"ERROR"` never lets `get`
terminate, while a job whose second poll returns `"COMPLETED"` does. -/
theorem async_finished_and_wait_loop_witness :
    TAP_AsyncQuery.get (fun _ => "ERROR") "tbl" true 7 = none
    ∧ (∃ fuel, (TAP_AsyncQuery.get
        (fun n => if n = 0 then "EXECUTING" else "COMPLETED") "tbl" true fuel).isSome) :=
  ⟨async_finished_and_wait_loop.2.2 (fun _ => "ERROR") "tbl"
      (fun _ h => by simp at h) 7,
   (async_finished_and_wait_loop.2.1
      (fun n => if n = 0 then "EXECUTING" else "COMPLETED") "tbl").mpr
      ⟨1, by decide⟩⟩

/-- C3: if the job is still not finished after the (possibly skipped) wait
loop, `get` returns `None` (`some none`: the call terminates and returns the
absence sentinel) and the result resource is never fetched; in particular
`get(wait=False)` on a job whose phase is not `"COMPLETED"` returns `None`.
The last conjunct expresses "no fetch": a `None` return is insensitive to
whatever the results resource would have contained. -/
theorem async_get_nowait_returns_nothing :
    (∀ (phases : ℕ → String) (resultBody : String) (wait : Bool) (fuel j : ℕ),
        TAP_AsyncQuery.getLoop phases wait fuel 0 = some j →
        TAP_AsyncQuery.finished (phases j) = false →
        TAP_AsyncQuery.get phases resultBody wait fuel = some none)
    ∧ (∀ (phases : ℕ → String) (fuel : ℕ), 1 ≤ fuel →
        TAP_AsyncQuery.getLoop phases false fuel 0 = some 1)
    ∧ (∀ (p : String) (resultBody : String) (fuel : ℕ), 1 ≤ fuel →
        p ≠ "COMPLETED" →
        TAP_AsyncQuery.get (fun _ => p) resultBody false fuel = some none)
    ∧ (∀ (phases : ℕ → String) (resultBody resultBody' : String)
        (wait : Bool) (fuel : ℕ),
        TAP_AsyncQuery.get phases resultBody wait fuel = some none →
        TAP_AsyncQuery.get phases resultBody' wait fuel = some none) := by
  refine ⟨?_, getLoop_nowait, ?_, ?_⟩
  · intro phases resultBody wait fuel j hloop hfin
    rw [TAP_AsyncQuery.get, hloop]
    simp [hfin]
  · intro p resultBody fuel hfuel hp
    rw [TAP_AsyncQuery.get, getLoop_nowait _ fuel hfuel]
    simp [TAP_AsyncQuery.finished, hp]
  · intro phases resultBody resultBody' wait fuel h
    rw [TAP_AsyncQuery.get] at h ⊢
    rcases hloop : TAP_AsyncQuery.getLoop phases wait fuel 0 with _ | j
    · rw [hloop] at h; simp at h
    · rw [hloop] at h
      by_cases hfin : TAP_AsyncQuery.finished (phases j) = true
      · simp [hfin] at h
      · simp only [Bool.not_eq_true] at hfin
        simp [hfin] at h ⊢

/-- Closed witness for C3: `get(wait=False)` on a job polling `"EXECUTING"`
returns the absence sentinel without fetching the result. -/
theorem async_get_nowait_returns_nothing_witness :
    TAP_AsyncQuery.get (fun _ => "EXECUTING") "tbl" false 1 = some none :=
  async_get_nowait_returns_nothing.2.2.1 "EXECUTING" "tbl" 1 (by decide) (by decide)

/-- C6: a newly constructed job has `location = None` and `jobid = None`,
status and result requests fail on the unset (`None`) job identifier, and a
submit without a `location` response header fails; a successful submit sets
`location` to the header value and `jobid` to the substring after its last
`'/'` (the final conjunct characterises that substring). -/
theorem async_init_submit_invariants :
    (∀ (adql host path : String) (port : ℕ),
      (TAP_AsyncQuery.init adql host path port).location = none
      ∧ (TAP_AsyncQuery.init adql host path port).jobid = none
      ∧ (TAP_AsyncQuery.init adql host path port).statusUrl = none
      ∧ (TAP_AsyncQuery.init adql host path port).resultUrl = none
      ∧ TAP_AsyncQuery.submit (TAP_AsyncQuery.init adql host path port) none = none
      ∧ ∀ loc, TAP_AsyncQuery.submit (TAP_AsyncQuery.init adql host path port) (some loc)
          = some { TAP_AsyncQuery.init adql host path port with
                   location := some loc, jobid := some (jobidOf loc) })
    ∧ (∀ a b : String, '/' ∉ b.data → jobidOf (a ++ "/" ++ b) = b) := by
  constructor
  · intro adql host path port
    exact ⟨rfl, rfl, rfl, rfl, rfl, fun loc => rfl⟩
  · intro a b hb
    have hdata : (a ++ "/" ++ b).data = a.data ++ '/' :: b.data := by
      simp [String.data_append]
    rw [jobidOf, hdata, strRfind_append a.data b.data hb]
    have hidx : ((a.data.length : ℤ) + 1).toNat = a.data.length + 1 := by omega
    rw [hidx]
    have hsplit : a.data ++ '/' :: b.data = (a.data ++ ['/']) ++ b.data := by simp
    rw [hsplit, List.drop_left' (by simp)]

/-- Closed witness for C6: the job identifier extracted from a concrete
location header. -/
theorem async_init_submit_invariants_witness :
    jobidOf ("http://server/tap/async" ++ "/" ++ "12345") = "12345" :=
  async_init_submit_invariants.2 "http://server/tap/async" "12345" (by decide)

/-- C7: `query_async` builds a job whose host and port are the service's and
whose path is the service's path suffixed with `"/async"` (values copied into
the job at construction); with `submit=False` the unsubmitted job is
returned, with `submit=True` the job is submitted (the result is exactly
that of `submit` on the fresh job) before being returned. -/
theorem query_async_constructs_job :
    ∀ (s : TAP_Service) (adql : String) (hdr : Option String),
      TAP_Service.query_async s adql false hdr
          = some (TAP_AsyncQuery.init adql s.host (s.path ++ "/async") s.port)
      ∧ TAP_Service.query_async s adql true hdr
          = TAP_AsyncQuery.submit
              (TAP_AsyncQuery.init adql s.host (s.path ++ "/async") s.port) hdr
      ∧ (TAP_AsyncQuery.init adql s.host (s.path ++ "/async") s.port).host = s.host
      ∧ (TAP_AsyncQuery.init adql s.host (s.path ++ "/async") s.port).port = s.port
      ∧ (TAP_AsyncQuery.init adql s.host (s.path ++ "/async") s.port).path
          = s.path ++ "/async"
      ∧ (TAP_AsyncQuery.init adql s.host (s.path ++ "/async") s.port).adql = adql :=
  fun _ _ _ => ⟨rfl, rfl, rfl, rfl, rfl, rfl⟩

/-- C8: the endpoint URL is `"http://" ++ host ++ path`, the port never
appears in it, and the two presets yield exactly the two documented URLs. -/
theorem tap_endpoint_spec :
    (∀ (host path : String) (port : ℕ),
      TAP_Service.tap_endpoint ⟨host, path, port⟩ = "http://" ++ host ++ path)
    ∧ (∀ (host path : String) (port₁ port₂ : ℕ),
      TAP_Service.tap_endpoint ⟨host, path, port₁⟩
        = TAP_Service.tap_endpoint ⟨host, path, port₂⟩)
    ∧ TAPVizieR.tap_endpoint = "http://tapvizier.u-strasbg.fr/TAPVizieR/tap"
    ∧ GaiaArchive.tap_endpoint = "http://gea.esac.esa.int/tap-server/tap" :=
  ⟨fun _ _ _ => rfl, fun _ _ _ _ => rfl, by decide, by decide⟩

/-- C9: the module-level `_pretty_print_time` and the classmethod
`timeit._pretty_print_time` (two verbatim copies in the source) are
extensionally equal. -/
theorem pretty_print_time_copies_agree :
    ∀ t : ℚ, _pretty_print_time t = Timeit._pretty_print_time t :=
  fun _ => rfl

/-- C10: calling a `timeit` built over a function returns exactly the
wrapped function's value on the argument — the timing context never alters
the result — and calling a `timeit` built with `func=None` (the
context-manager form) returns `None`. -/
theorem timeit_call_preserves_result :
    ∀ (α β : Type) (f : α → β) (x : α) (t0 t1 : ℚ),
      Timeit.call (Timeit.init (some f)) t0 t1 x = some (f x)
      ∧ Timeit.call (Timeit.init (none : Option (α → β))) t0 t1 x = none :=
  fun _ _ _ _ _ _ => ⟨rfl, rfl⟩

/-- C4: the synchronous query POSTs the fixed form parameters to
`{endpoint}/sync`; when the body parses as a VOTable the table is returned
and nothing is stashed, when parsing fails no exception escapes, the raw
response is stashed on the service object and nothing is returned.  The last
conjunct states that the outcome depends on the HTTP layer only through that
one POST. -/
theorem query_sync_parse_handling :
    ∀ (α : Type) (s : TAP_Service) (adql : String)
      (post : String → List (String × String) → String)
      (parse : String → Option α),
      (∀ table,
        parse (post (s.tap_endpoint ++ "/sync") (queryParams adql)) = some table →
        s.query_sync adql post parse = (some table, none))
      ∧ (parse (post (s.tap_endpoint ++ "/sync") (queryParams adql)) = none →
        s.query_sync adql post parse
          = (none, some (post (s.tap_endpoint ++ "/sync") (queryParams adql))))
      ∧ (∀ post' : String → List (String × String) → String,
          post (s.tap_endpoint ++ "/sync") (queryParams adql)
            = post' (s.tap_endpoint ++ "/sync") (queryParams adql) →
          s.query_sync adql post parse = s.query_sync adql post' parse) := by
  intro α s adql post parse
  refine ⟨?_, ?_, ?_⟩
  · intro table h
    rw [TAP_Service.query_sync, h]
  · intro h
    rw [TAP_Service.query_sync, h]
  · intro post' h
    rw [TAP_Service.query_sync, TAP_Service.query_sync, h]

/-- Closed witness for C4: a concrete server whose body parses, and one
whose body does not. -/
theorem query_sync_parse_handling_witness :
    TAPVizieR.query_sync "SELECT TOP 5 * FROM tab"
        (fun _ _ => "votable-body")
        (fun r => if r = "votable-body" then some 42 else none)
      = (some 42, none)
    ∧ TAPVizieR.query_sync "SELECT TOP 5 * FROM tab"
        (fun _ _ => "<html>error</html>")
        (fun r => if r = "votable-body" then some 42 else none)
      = (none, some "<html>error</html>") :=
  ⟨(query_sync_parse_handling ℕ TAPVizieR "SELECT TOP 5 * FROM tab"
      (fun _ _ => "votable-body")
      (fun r => if r = "votable-body" then some 42 else none)).1 42 (by decide),
   (query_sync_parse_handling ℕ TAPVizieR "SELECT TOP 5 * FROM tab"
      (fun _ _ => "<html>error</html>")
      (fun r => if r = "votable-body" then some 42 else none)).2.1 (by decide)⟩

theorem Xml.tag_elem (t s : String) (c : List Xml) : (Xml.elem t s c).tag = t := rfl

theorem Xml.children_elem (t s : String) (c : List Xml) :
    (Xml.elem t s c).children = c := rfl

/-- C5: when the XPath queries find resolver fields, `resolve` returns the
pair built from the first `jradeg`/`jdedeg` hits; concretely, on a document
whose first `Resolver` entry carries `jradeg`/`jdedeg` fields the pair comes
from that first entry (any further entries in `more` are ignored); when no
`Resolver` entry is present the empty list — not a pair — is returned. -/
theorem resolve_entry_handling :
    (∀ (doc : Xml) (pf : String → Option ℚ) (raEl deEl : Xml)
        (raRest deRest : List Xml) (ra dec : ℚ),
        sesameXpath doc "jradeg" = raEl :: raRest →
        sesameXpath doc "jdedeg" = deEl :: deRest →
        pf raEl.text = some ra → pf deEl.text = some dec →
        resolve doc pf = some (.coords ra dec))
    ∧ (∀ (doc : Xml) (pf : String → Option ℚ),
        sesameXpath doc "jradeg" = [] → resolve doc pf = some .emptyList)
    ∧ (∀ (pf : String → Option ℚ) (sra sdec stxt ttxt rtxt : String)
        (ra dec : ℚ) (more : List Xml),
        pf sra = some ra → pf sdec = some dec →
        resolve (Xml.elem "Sesame" stxt
          [Xml.elem "Target" ttxt
            (Xml.elem "Resolver" rtxt
              [Xml.elem "jradeg" sra [], Xml.elem "jdedeg" sdec []]
              :: more)]) pf = some (.coords ra dec))
    ∧ (∀ (pf : String → Option ℚ) (stxt ttxt : String) (others : List Xml),
        (∀ x ∈ others, x.tag ≠ "Resolver") →
        resolve (Xml.elem "Sesame" stxt [Xml.elem "Target" ttxt others]) pf
          = some .emptyList) := by
  refine ⟨?_, ?_, ?_, ?_⟩
  · intro doc pf raEl deEl raRest deRest ra dec hra hde hpra hpde
    rw [resolve]
    simp only [hra, hde, hpra, hpde]
  · intro doc pf hra
    rw [resolve]
    simp only [hra]
  · intro pf sra sdec stxt ttxt rtxt ra dec more hpra hpde
    rw [resolve]
    simp [sesameXpath, Xml.tag, Xml.children, Xml.text, hpra, hpde]
  · intro pf stxt ttxt others hothers
    rw [resolve]
    have hfilter : others.filter (fun c => c.tag == "Resolver") = [] := by
      rw [List.filter_eq_nil_iff]
      intro x hx
      simpa using hothers x hx
    simp [sesameXpath, Xml.tag_elem, Xml.children_elem, hfilter]

/-- Closed witness for C5: the mock document of the spec, with one resolver
entry carrying `jradeg=10.68` and `jdedeg=41.27`, resolves to that pair; the
document with no resolver entry yields the empty list. -/
theorem resolve_entry_handling_witness :
    resolve (Xml.elem "Sesame" ""
        [Xml.elem "Target" ""
          [Xml.elem "Resolver" "R1"
            [Xml.elem "jradeg" "10.68" [], Xml.elem "jdedeg" "41.27" []]]])
        (fun s => if s = "10.68" then some (1068 / 100)
                  else if s = "41.27" then some (4127 / 100) else none)
      = some (.coords (1068 / 100) (4127 / 100))
    ∧ resolve (Xml.elem "Sesame" "" [Xml.elem "Target" "" []])
        (fun s => if s = "10.68" then some (1068 / 100)
                  else if s = "41.27" then some (4127 / 100) else none)
      = some .emptyList :=
  ⟨resolve_entry_handling.2.2.1
      (fun s => if s = "10.68" then some (1068 / 100)
                else if s = "41.27" then some (4127 / 100) else none)
      "10.68" "41.27" "" "" "R1" (1068 / 100) (4127 / 100) []
      (by simp) (by simp),
   resolve_entry_handling.2.2.2
      (fun s => if s = "10.68" then some (1068 / 100)
                else if s = "41.27" then some (4127 / 100) else none)
      "" "" [] (by simp)⟩

theorem ndigitsAux_of_zero : ∀ fuel, ndigitsAux fuel 0 = 0 := by
  intro fuel; cases fuel <;> simp [ndigitsAux]

theorem ndigitsAux_spec : ∀ fuel n, n < fuel → 1 ≤ n →
    1 ≤ ndigitsAux fuel n
    ∧ 10 ^ (ndigitsAux fuel n - 1) ≤ n
    ∧ n < 10 ^ ndigitsAux fuel n := by
  intro fuel
  induction fuel with
  | zero => intro n h _; omega
  | succ k ih =>
    intro n hn h1
    have hne : ¬n = 0 := by omega
    rw [ndigitsAux, if_neg hne]
    by_cases hsmall : n / 10 = 0
    · rw [hsmall, ndigitsAux_of_zero]
      refine ⟨by omega, by simpa using h1, by simpa using (by omega : n < 10)⟩
    · have hdiv1 : 1 ≤ n / 10 := by omega
      have hdivlt : n / 10 < k := by
        have := Nat.div_lt_self (show 0 < n by omega) (show 1 < 10 by omega)
        omega
      obtain ⟨hA1, hAle, hAlt⟩ := ih (n / 10) hdivlt hdiv1
      refine ⟨by omega, ?_, ?_⟩
      · have h10 : 10 ^ (ndigitsAux k (n / 10) + 1 - 1)
            = 10 ^ (ndigitsAux k (n / 10) - 1) * 10 := by
          rw [← pow_succ]
          congr 1
          omega
        rw [h10]
        have := Nat.div_add_mod n 10
        have := Nat.mod_lt n (show 0 < 10 by omega)
        omega
      · rw [pow_succ]
        have := Nat.div_add_mod n 10
        have := Nat.mod_lt n (show 0 < 10 by omega)
        omega

theorem ndigits_spec (n : ℕ) (h1 : 1 ≤ n) :
    1 ≤ ndigits n ∧ 10 ^ (ndigits n - 1) ≤ n ∧ n < 10 ^ ndigits n :=
  ndigitsAux_spec (n + 1) n (by omega) h1

theorem rat_as_natCast_div (t : ℚ) (ht : 0 < t) :
    t = (t.num.natAbs : ℚ) / (t.den : ℚ) := by
  have hnum_pos : 0 < t.num := Rat.num_pos.mpr ht
  have h1 : (t.num.natAbs : ℚ) = (t.num : ℚ) := by
    rw [Int.cast_natAbs, abs_of_nonneg hnum_pos.le]
  rw [h1]
  exact (Rat.num_div_den t).symm

theorem flog10_spec (t : ℚ) (ht : 0 < t) :
    (10:ℚ) ^ flog10 t ≤ t ∧ t < (10:ℚ) ^ (flog10 t + 1) := by
  have hnum_pos : 0 < t.num := Rat.num_pos.mpr ht
  have hn : 0 < t.num.natAbs := by omega
  have hd : 0 < t.den := t.pos
  have hteq : t = (t.num.natAbs : ℚ) / (t.den : ℚ) := rat_as_natCast_div t ht
  set n := t.num.natAbs with hn_def
  set d := t.den with hd_def
  have hdQ : (0:ℚ) < (d:ℚ) := by exact_mod_cast hd
  by_cases hdn : d ≤ n
  · -- t ≥ 1
    have hmd : 1 ≤ n / d := (Nat.one_le_div_iff hd).mpr hdn
    obtain ⟨hD1, hDle, hDlt⟩ := ndigits_spec (n / d) hmd
    set D := ndigits (n / d) with hD
    have hflog : flog10 t = (D : ℤ) - 1 := by
      rw [flog10, flog10nd, if_pos hdn]
    constructor
    · rw [hflog]
      have hcast : (D : ℤ) - 1 = ((D - 1 : ℕ) : ℤ) := by omega
      rw [hcast, zpow_natCast, hteq, le_div_iff hdQ]
      have hNat : 10 ^ (D - 1) * d ≤ n := by
        calc 10 ^ (D - 1) * d ≤ (n / d) * d := Nat.mul_le_mul_right d hDle
          _ ≤ n := Nat.div_mul_le_self n d
      exact_mod_cast hNat
    · rw [hflog]
      have hcast : (D : ℤ) - 1 + 1 = ((D : ℕ) : ℤ) := by omega
      rw [hcast, zpow_natCast, hteq, div_lt_iff hdQ]
      have hNat : n < 10 ^ D * d := by
        have hmod := Nat.div_add_mod n d
        have hmlt := Nat.mod_lt n hd
        have h2 : n < d * (n / d + 1) := by
          have : d * (n / d + 1) = d * (n / d) + d := by ring
          omega
        calc n < d * (n / d + 1) := h2
          _ ≤ d * 10 ^ D := Nat.mul_le_mul_left d hDlt
          _ = 10 ^ D * d := by ring
      exact_mod_cast hNat
  · -- 0 < t < 1
    have hnd : n < d := by omega
    have hm1 : 1 ≤ d / n := (Nat.one_le_div_iff hn).mpr (by omega)
    obtain ⟨hD1, hDle, hDlt⟩ := ndigits_spec (d / n) hm1
    set D := ndigits (d / n) with hD
    have hnQ : (0:ℚ) < (n:ℚ) := by exact_mod_cast hn
    have hnd_unfold : flog10 t
        = if d = n * 10 ^ (ndigits (d / n) - 1)
          then -((ndigits (d / n) - 1 : ℕ) : ℤ)
          else -(((ndigits (d / n) - 1 : ℕ) : ℤ) + 1) := by
      rw [show flog10 t = flog10nd n d from rfl, flog10nd, if_neg hdn]
    by_cases heq : d = n * 10 ^ (D - 1)
    · have hflog : flog10 t = -((D - 1 : ℕ) : ℤ) := by
        rw [hnd_unfold, if_pos heq]
      have htval : t = (10:ℚ) ^ (-((D - 1 : ℕ) : ℤ)) := by
        rw [hteq, heq, zpow_neg, zpow_natCast]
        push_cast
        rw [div_mul_eq_div_div, div_self (ne_of_gt hnQ), one_div]
      rw [hflog]
      constructor
      · rw [htval]
      · rw [htval]
        exact (zpow_lt_zpow_iff_right₀ (by norm_num : (1:ℚ) < 10)).mpr (by omega)
    · have hflog : flog10 t = -(((D - 1 : ℕ) : ℤ) + 1) := by
        rw [hnd_unfold, if_neg heq]
      have hDe : D - 1 + 1 = D := by omega
      have hdm := Nat.div_add_mod d n
      have hdmlt := Nat.mod_lt d hn
      rw [hflog]
      constructor
      · have hNat : d ≤ n * 10 ^ D := by
          have h2 : d < n * (d / n + 1) := by
            have : n * (d / n + 1) = n * (d / n) + n := by ring
            omega
          have h3 : n * (d / n + 1) ≤ n * 10 ^ D := Nat.mul_le_mul_left n hDlt
          omega
        have hcast : -(((D - 1 : ℕ) : ℤ) + 1) = -((D : ℕ) : ℤ) := by omega
        rw [hcast, zpow_neg, zpow_natCast, hteq, inv_eq_one_div,
          div_le_div_iff (by positivity) hdQ]
        have : (1:ℚ) * d = (d:ℚ) := by ring
        rw [this]
        exact_mod_cast hNat
      · have hNat : n * 10 ^ (D - 1) < d := by
          have h4 : n * 10 ^ (D - 1) ≤ n * (d / n) := Nat.mul_le_mul_left n hDle
          have h5 : n * (d / n) ≤ d := by omega
          have h6 : n * 10 ^ (D - 1) ≤ d := le_trans h4 h5
          omega
        have hcast : -(((D - 1 : ℕ) : ℤ) + 1) + 1 = -((D - 1 : ℕ) : ℤ) := by ring
        rw [hcast, zpow_neg, zpow_natCast, hteq, inv_eq_one_div,
          div_lt_div_iff hdQ (by positivity)]
        have hgoal : (n:ℚ) * 10 ^ (D - 1) < 1 * d := by
          rw [one_mul]
          exact_mod_cast hNat
        exact hgoal

theorem flog10_eq_of_zpow (t : ℚ) (ht : 0 < t) (L : ℤ)
    (h1 : (10:ℚ) ^ L ≤ t) (h2 : t < (10:ℚ) ^ (L + 1)) : flog10 t = L := by
  obtain ⟨g1, g2⟩ := flog10_spec t ht
  by_contra hne
  rcases lt_or_gt_of_ne hne with hlt | hgt
  · have hle : (10:ℚ) ^ (flog10 t + 1) ≤ (10:ℚ) ^ L :=
      zpow_le_zpow_right₀ (by norm_num) (by omega)
    exact absurd (lt_of_lt_of_le g2 (le_trans hle h1)) (lt_irrefl t)
  · have hle : (10:ℚ) ^ (L + 1) ≤ (10:ℚ) ^ (flog10 t) :=
      zpow_le_zpow_right₀ (by norm_num) (by omega)
    exact absurd (lt_of_lt_of_le h2 (le_trans hle g1)) (lt_irrefl t)

theorem flog10_lt_three (t : ℚ) (h0 : 0 < t) (h1 : t < 1000) : flog10 t < 3 := by
  obtain ⟨g1, _⟩ := flog10_spec t h0
  have h1000 : (1000:ℚ) = (10:ℚ) ^ (3:ℤ) := by norm_num
  have hlt : (10:ℚ) ^ flog10 t < (10:ℚ) ^ (3:ℤ) :=
    lt_of_le_of_lt g1 (h1000 ▸ h1)
  exact (zpow_lt_zpow_iff_right₀ (by norm_num : (1:ℚ) < 10)).mp hlt

theorem unitOrder_le_three (t : ℚ) : unitOrder t ≤ 3 := by
  rw [unitOrder]
  split
  · have hmin : min (-((flog10 t).fdiv 3)) 3 ≤ (3:ℤ) := min_le_right _ _
    calc (min (-((flog10 t).fdiv 3)) 3).toNat ≤ (3:ℤ).toNat := Int.toNat_le_toNat hmin
      _ = 3 := rfl
  · split <;> omega

theorem scaling_getD_pow (o : ℕ) (h : o ≤ 3) : scaling.getD o 1 = (1000:ℚ) ^ o := by
  interval_cases o <;> norm_num [scaling]

/-- C2 counterexample: the claim's microsecond output `"1 µs"` is not what
the code produces — the source's unit list is `[u"s", u"ms", u'us', "ns"]`
(ASCII `us`, tap.py line 28), so `t = 0.000001` formats as `"1 us"`. -/
theorem pretty_print_time_microsecond_counterexample :
    _pretty_print_time (1 / 1000000) = "1 us" ∧ "1 us" ≠ "1 µs" :=
  ⟨by with_unfolding_all rfl, by decide⟩

/-- C2 (amended: the microsecond unit string is the ASCII `"us"`, not
`"µs"`, so the unit set is `{s, ms, us, ns}` and `t = 0.000001` gives
`"1 us"`; everything else as claimed): the formatter output is the
`%.3g`-formatted number `t` scaled by the matching power of 1000, a space,
and the selected unit; the unit index is `min(3, -⌊log10 t / 3⌋)` for
`0 < t < 1000` (stated via any `L` with `10^L ≤ t < 10^(L+1)`, i.e.
`L = ⌊log10 t⌋`, and `⌊L / 3⌋ = L.fdiv 3`), seconds for `t ≥ 1000`,
nanoseconds for `t ≤ 0`; and the four documented sample points evaluate as
listed. -/
theorem pretty_print_time_spec :
    (∀ t : ℚ,
      _pretty_print_time t
          = fmtG3 (t * 1000 ^ unitOrder t) ++ " " ++ units.getD (unitOrder t) "s"
      ∧ (1000 ≤ t → unitOrder t = 0)
      ∧ (t ≤ 0 → unitOrder t = 3)
      ∧ (∀ L : ℤ, 0 < t → t < 1000 →
          (10:ℚ) ^ L ≤ t → t < (10:ℚ) ^ (L + 1) →
          (unitOrder t : ℤ) = min 3 (-(L.fdiv 3))))
    ∧ _pretty_print_time (1 / 2) = "500 ms"
    ∧ _pretty_print_time 1 = "1 s"
    ∧ _pretty_print_time (1 / 1000000) = "1 us"
    ∧ _pretty_print_time 1500 = "1.5e+03 s" := by
  refine ⟨?_, by with_unfolding_all rfl, by with_unfolding_all rfl,
    by with_unfolding_all rfl, by with_unfolding_all rfl⟩
  intro t
  refine ⟨?_, ?_, ?_, ?_⟩
  · rw [_pretty_print_time, scaling_getD_pow (unitOrder t) (unitOrder_le_three t)]
  · intro h
    rw [unitOrder, if_neg (fun hc => absurd hc.2 (not_lt.mpr h)), if_pos h]
  · intro h
    rw [unitOrder, if_neg (fun hc => absurd hc.1 (not_lt.mpr h)),
      if_neg (not_le.mpr (lt_of_le_of_lt h (by norm_num)))]
  · intro L h0 h1 hL1 hL2
    have hF : flog10 t = L := flog10_eq_of_zpow t h0 L hL1 hL2
    subst hF
    have h3 : flog10 t < 3 := flog10_lt_three t h0 h1
    have hfd : (flog10 t).fdiv 3 ≤ 0 := by
      rw [Int.fdiv_eq_ediv _ (by norm_num)]
      omega
    rw [unitOrder, if_pos ⟨h0, h1⟩,
      Int.toNat_of_nonneg (le_min (by omega) (by omega)), min_comm]

/-- Closed witness for the C2 theorem: at `t = 1/2` (where `⌊log10 t⌋ = -1`)
the unit index is `min(3, -⌊-1/3⌋) = 1`, i.e. milliseconds. -/
theorem pretty_print_time_spec_witness :
    (unitOrder (1 / 2 : ℚ) : ℤ) = min 3 (-(Int.fdiv (-1) 3)) :=
  (pretty_print_time_spec.1 (1 / 2)).2.2.2 (-1) (by norm_num) (by norm_num)
    (by norm_num) (by norm_num)
